import Mathlib

/-!
Shallow embedding of the university appointment system (src/app.py).

The relational store is embedded as lists of records, one list per table.
Each Flask handler's database-mutating branch is embedded as a pure
function from a store (and the acting user / session) to either an error
or an updated store.  Primary keys are allocated as one plus the maximum
existing id, matching SQLite rowid allocation.  The werkzeug password
hash and check are abstracted as function parameters, since the handlers
only ever call them opaquely.
-/

namespace UAS

/-- Errors surfaced by the handlers as flash messages plus a redirect. -/
inductive AppError where
  | DuplicateEmail
  | InvalidCredentials
  | Unauthenticated
  | RoleForbidden
  | OwnershipForbidden
  | NotFound
  | DuplicateName
  deriving Repr, DecidableEq

/-- `departments` table (class Department, app.py lines 24-31). -/
structure Department where
  department_id : Nat
  department_name : String
  building : String
  phone : String
  deriving Repr, DecidableEq

/-- `users` table (class User, app.py lines 34-54). -/
structure User where
  user_id : Nat
  name : String
  email : String
  role : String
  password_hash : String
  department_id : Option Nat
  deriving Repr, DecidableEq

/-- `availability` table (class Availability, app.py lines 57-64). -/
structure Availability where
  availability_id : Nat
  faculty_id : Nat
  day_of_week : String
  start_time : String
  end_time : String
  is_available : Bool
  deriving Repr, DecidableEq

/-- `appointments` table (class Appointment, app.py lines 67-76). -/
structure Appointment where
  appointment_id : Nat
  student_id : Nat
  faculty_id : Nat
  appointment_date : String
  start_time : String
  end_time : String
  status : String
  purpose : String
  deriving Repr, DecidableEq

/-- `notifications` table (class Notification, app.py lines 79-89). -/
structure Notification where
  notification_id : Nat
  appointment_id : Nat
  message : String
  sent_status : String
  deriving Repr, DecidableEq

/-- The whole relational store. -/
structure Store where
  departments : List Department
  users : List User
  availabilities : List Availability
  appointments : List Appointment
  notifications : List Notification
  deriving Repr, DecidableEq

/-- The empty store, as produced by `db.create_all()` on a fresh database. -/
def emptyStore : Store :=
  { departments := [], users := [], availabilities := [], appointments := [],
    notifications := [] }

/-- Fresh primary key: one plus the maximum id in use (SQLite rowid). -/
def nextId (ids : List Nat) : Nat :=
  ids.foldr max 0 + 1

/-- `register` POST branch (app.py lines 119-143): reject a duplicate
email, otherwise hash the password and insert one User row. -/
def register (s : Store) (name email password role : String)
    (department_id : Option Nat) (hash : String → String) :
    Except AppError Store :=
  if (s.users.find? (fun u => u.email == email)).isSome then
    .error .DuplicateEmail
  else
    .ok { s with users := s.users ++
      [{ user_id := nextId (s.users.map User.user_id), name := name,
         email := email, role := role, password_hash := hash password,
         department_id := department_id }] }

/-- `new_appointment` POST branch (app.py lines 240-277): only students
may create; on success insert one Appointment row with status
"scheduled" and then one Notification row referencing the fresh
appointment id with sent_status "pending". -/
def new_appointment (s : Store) (u : User) (faculty_id : Nat)
    (appointment_date start_time end_time purpose : String) :
    Except AppError Store :=
  if u.role != "student" then .error .RoleForbidden
  else
    let aid := nextId (s.appointments.map Appointment.appointment_id)
    let appt : Appointment :=
      { appointment_id := aid, student_id := u.user_id,
        faculty_id := faculty_id, appointment_date := appointment_date,
        start_time := start_time, end_time := end_time,
        status := "scheduled", purpose := purpose }
    let s1 := { s with appointments := s.appointments ++ [appt] }
    let notif : Notification :=
      { notification_id := nextId (s1.notifications.map Notification.notification_id),
        appointment_id := aid,
        message := "New appointment on " ++ appointment_date ++ " at " ++ start_time,
        sent_status := "pending" }
    .ok { s1 with notifications := s1.notifications ++ [notif] }

/-- `cancel_appointment` (app.py lines 284-301): 404 when the id is
absent; a student may only cancel their own appointment and a faculty
member only theirs (any other role falls through); the surviving row
with that id gets status "cancelled". -/
def cancel_appointment (s : Store) (u : User) (appointment_id : Nat) :
    Except AppError Store :=
  match s.appointments.find? (fun a => a.appointment_id == appointment_id) with
  | none => .error .NotFound
  | some appt =>
      if u.role == "student" && appt.student_id != u.user_id then
        .error .OwnershipForbidden
      else if u.role == "faculty" && appt.faculty_id != u.user_id then
        .error .OwnershipForbidden
      else
        .ok { s with appointments := s.appointments.map (fun a =>
          if a.appointment_id == appointment_id then
            { a with status := "cancelled" } else a) }

/-- `availability` POST branch (app.py lines 308-330): only faculty may
add; insert one Availability row with is_available true, with no
overlap or ordering validation whatsoever. -/
def availability (s : Store) (u : User) (day_of_week start_time end_time : String) :
    Except AppError Store :=
  if u.role != "faculty" then .error .RoleForbidden
  else
    .ok { s with availabilities := s.availabilities ++
      [{ availability_id := nextId (s.availabilities.map Availability.availability_id),
         faculty_id := u.user_id, day_of_week := day_of_week,
         start_time := start_time, end_time := end_time,
         is_available := true }] }

/-- `departments` POST branch (app.py lines 340-356): only admin may
add; the unique constraint on department_name (app.py line 27) makes a
duplicate name fail at the storage layer, otherwise one row is
inserted. -/
def departments (s : Store) (u : User) (name building phone : String) :
    Except AppError Store :=
  if u.role != "admin" then .error .RoleForbidden
  else if (s.departments.find? (fun d => d.department_name == name)).isSome then
    .error .DuplicateName
  else
    .ok { s with departments := s.departments ++
      [{ department_id := nextId (s.departments.map Department.department_id),
         department_name := name, building := building, phone := phone }] }

/-- Total appointment count on the dashboard (app.py line 190). -/
def total_appointments (s : Store) : Nat :=
  s.appointments.length

/-- Role-scoped "my appointments" count on the dashboard (app.py lines
191-198): student counts rows where they are the student, faculty rows
where they are the faculty, and every other role falls into the else
branch and gets the global total. -/
def my_appointments (s : Store) (u : User) : Nat :=
  if u.role == "student" then
    (s.appointments.filter (fun a => a.student_id == u.user_id)).length
  else if u.role == "faculty" then
    (s.appointments.filter (fun a => a.faculty_id == u.user_id)).length
  else
    total_appointments s

/-- `appointments` listing route (app.py lines 226-237): student sees
rows where they are the student, faculty rows where they are the
faculty, and every other role falls into the else branch and sees all
rows. -/
def appointments (s : Store) (u : User) : List Appointment :=
  if u.role == "student" then
    s.appointments.filter (fun a => a.student_id == u.user_id)
  else if u.role == "faculty" then
    s.appointments.filter (fun a => a.faculty_id == u.user_id)
  else
    s.appointments

/-- The multiset of rows of the dashboard's department join (app.py
lines 201-207): Department joined to User on department_id, joined to
Appointment on faculty_id, one department name per join row.  Both join
keys are primary keys on their side, so iterating appointments
outermost produces the same multiset of rows as the SQL inner join. -/
def deptJoinRows (s : Store) : List String :=
  s.appointments.flatMap (fun a =>
    s.users.flatMap (fun u =>
      if u.user_id == a.faculty_id then
        s.departments.filterMap (fun d =>
          if u.department_id == some d.department_id then
            some d.department_name
          else none)
      else []))

/-- The dashboard's group-by: one (department_name, count) pair per
distinct department name occurring in the join rows (app.py lines
201-207). -/
def dept_counts (s : Store) : List (String × Nat) :=
  (deptJoinRows s).dedup.map (fun n => (n, (deptJoinRows s).count n))

/-- `login` POST branch (app.py lines 149-163): look the user up by
email, check the password hash, and on success bind the session to the
user id; on failure flash invalid-credentials and leave the session
alone.  The result is the new session plus the error, if any. -/
def login (s : Store) (sess : Option Nat) (email password : String)
    (check : String → String → Bool) : Option Nat × Option AppError :=
  match s.users.find? (fun u => u.email == email) with
  | some u =>
      if check u.password_hash password then (some u.user_id, none)
      else (sess, some .InvalidCredentials)
  | none => (sess, some .InvalidCredentials)

end UAS

namespace UAS

/-- A tiny concrete hash for witnesses: prepend a tag. -/
def demoHash (p : String) : String :=
  "hashed:" ++ p

/-- The matching concrete check for witnesses. -/
def demoCheck (stored p : String) : Bool :=
  stored == demoHash p

/-- A concrete user row used by witnesses. -/
def aliceUser : User :=
  { user_id := 1, name := "Alice", email := "alice@u.edu", role := "student",
    password_hash := demoHash "pw1", department_id := none }

/-- A concrete store with one registered user. -/
def oneUserStore : Store :=
  { emptyStore with users := [aliceUser] }

/-- A concrete faculty user row used by witnesses. -/
def drjUser : User :=
  { user_id := 2, name := "Dr. Johnson", email := "johnson@u.edu",
    role := "faculty", password_hash := demoHash "pw2", department_id := some 1 }

/-- A second concrete faculty user, not party to sampleAppt. -/
def drkUser : User :=
  { user_id := 3, name := "Dr. Kim", email := "kim@u.edu",
    role := "faculty", password_hash := demoHash "pw3", department_id := some 1 }

/-- A concrete admin user row used by witnesses. -/
def adminUser : User :=
  { user_id := 4, name := "Root", email := "root@u.edu",
    role := "admin", password_hash := demoHash "pw4", department_id := none }

/-- A concrete user with a free-text role that is none of the three. -/
def sudoUser : User :=
  { user_id := 5, name := "Sudo", email := "sudo@u.edu",
    role := "superuser", password_hash := demoHash "pw5", department_id := none }

/-- A concrete department row used by witnesses. -/
def csDept : Department :=
  { department_id := 1, department_name := "Computer Science",
    building := "Ahlberg Hall", phone := "316-978-3000" }

/-- A concrete scheduled appointment between aliceUser and drjUser. -/
def sampleAppt : Appointment :=
  { appointment_id := 1, student_id := 1, faculty_id := 2,
    appointment_date := "2024-03-01", start_time := "09:00",
    end_time := "10:00", status := "scheduled", purpose := "advising" }

/-- A concrete store holding one department, several users and one
scheduled appointment. -/
def apptStore : Store :=
  { departments := [csDept], users := [aliceUser, drjUser, drkUser, adminUser, sudoUser],
    availabilities := [], appointments := [sampleAppt], notifications := [] }

end UAS

namespace UAS

/-- C4: registering with an email already held by some existing User row
fails with DuplicateEmail, and (the operation returning only the error)
the User table gains no row and modifies none. -/
theorem register_duplicate_email (s : Store) (name email password role : String)
    (dept : Option Nat) (hash : String → String)
    (u : User) (hu : u ∈ s.users) (he : u.email = email) :
    register s name email password role dept hash = .error .DuplicateEmail := by
  unfold register
  have : (s.users.find? (fun v => v.email == email)).isSome := by
    rw [List.find?_isSome]
    exact ⟨u, hu, by simp [he]⟩
  simp [this]

/-- Witness for C4 at a concrete store and input. -/
theorem register_duplicate_email_witness :
    register oneUserStore "Bob" "alice@u.edu" "pw2" "student" none demoHash
      = .error .DuplicateEmail :=
  register_duplicate_email oneUserStore "Bob" "alice@u.edu" "pw2" "student"
    none demoHash aliceUser (by simp [oneUserStore]) rfl

/-- C5: login with an email matching no user, or matching a user whose
hash check fails, yields InvalidCredentials and leaves the session as it
was (absent stays absent); and whenever login binds the session to an
id with no error, that id is the id of the user found by email and the
check succeeded for the supplied password. -/
theorem login_invalid_credentials (s : Store) (sess : Option Nat)
    (email password : String) (check : String → String → Bool) :
    (s.users.find? (fun u => u.email == email) = none →
      login s sess email password check = (sess, some .InvalidCredentials)) ∧
    (∀ u, s.users.find? (fun v => v.email == email) = some u →
      check u.password_hash password = false →
      login s sess email password check = (sess, some .InvalidCredentials)) ∧
    (∀ uid, login s sess email password check = (some uid, none) →
      ∃ u, s.users.find? (fun v => v.email == email) = some u ∧
        u.user_id = uid ∧ check u.password_hash password = true) := by
  refine ⟨?_, ?_, ?_⟩
  · intro h
    simp [login, h]
  · intro u hu hc
    simp [login, hu, hc]
  · intro uid h
    unfold login at h
    cases hfind : s.users.find? (fun v => v.email == email) with
    | none =>
        rw [hfind] at h
        cases sess with
        | none => simp at h
        | some x => simp at h
    | some u =>
        rw [hfind] at h
        by_cases hc : check u.password_hash password
        · refine ⟨u, rfl, ?_, hc⟩
          simp [hc] at h
          exact h
        · exfalso
          cases sess with
          | none => simp [hc] at h
          | some x => simp [hc] at h

/-- Witness for C5 at a concrete store: absent email, wrong password,
and a successful login, each at a concrete input. -/
theorem login_invalid_credentials_witness :
    login oneUserStore none "nobody@u.edu" "pw1" demoCheck
      = (none, some AppError.InvalidCredentials) ∧
    login oneUserStore none "alice@u.edu" "wrong" demoCheck
      = (none, some AppError.InvalidCredentials) := by
  constructor
  · exact (login_invalid_credentials oneUserStore none "nobody@u.edu" "pw1"
      demoCheck).1 (by decide)
  · exact (login_invalid_credentials oneUserStore none "alice@u.edu" "wrong"
      demoCheck).2.1 aliceUser (by decide)
      (by decide)

end UAS

namespace UAS

/-- C1: for a logged-in student, a successful new_appointment appends
exactly one Appointment row carrying the submitted fields with status
"scheduled" and exactly one Notification row referencing the new
appointment id with sent_status "pending"; every other table of the
store is left exactly as it was. -/
theorem new_appointment_adds_one_row (s : Store) (u : User) (F : Nat)
    (d st en p : String) (h : u.role = "student") :
    ∃ appt notif,
      new_appointment s u F d st en p = .ok
        { s with appointments := s.appointments ++ [appt],
                 notifications := s.notifications ++ [notif] } ∧
      appt.student_id = u.user_id ∧ appt.faculty_id = F ∧
      appt.appointment_date = d ∧ appt.start_time = st ∧
      appt.end_time = en ∧ appt.purpose = p ∧ appt.status = "scheduled" ∧
      notif.appointment_id = appt.appointment_id ∧
      notif.sent_status = "pending" := by
  refine ⟨{ appointment_id := nextId (s.appointments.map Appointment.appointment_id),
            student_id := u.user_id, faculty_id := F, appointment_date := d,
            start_time := st, end_time := en, status := "scheduled",
            purpose := p },
          { notification_id := nextId (s.notifications.map Notification.notification_id),
            appointment_id := nextId (s.appointments.map Appointment.appointment_id),
            message := "New appointment on " ++ d ++ " at " ++ st,
            sent_status := "pending" },
          ?_, rfl, rfl, rfl, rfl, rfl, rfl, rfl, rfl, rfl⟩
  simp [new_appointment, h]

/-- Witness for C1 at a concrete student, store and form input. -/
theorem new_appointment_adds_one_row_witness :
    ∃ appt notif,
      new_appointment oneUserStore aliceUser 2 "2024-03-01" "09:00" "10:00" "advising"
        = .ok { oneUserStore with
                  appointments := oneUserStore.appointments ++ [appt],
                  notifications := oneUserStore.notifications ++ [notif] } ∧
      appt.student_id = aliceUser.user_id ∧ appt.faculty_id = 2 ∧
      appt.appointment_date = "2024-03-01" ∧ appt.start_time = "09:00" ∧
      appt.end_time = "10:00" ∧ appt.purpose = "advising" ∧
      appt.status = "scheduled" ∧
      notif.appointment_id = appt.appointment_id ∧
      notif.sent_status = "pending" :=
  new_appointment_adds_one_row oneUserStore aliceUser 2 "2024-03-01" "09:00"
    "10:00" "advising" rfl

/-- C8: for any logged-in faculty user and any existing availability
rows (overlapping or with start at or after end alike), the availability
POST succeeds, appending exactly one new row with is_available true and
the submitted times unvalidated; consequently posting twice appends two
rows. -/
theorem availability_always_inserts (s : Store) (u : User)
    (day st en : String) (h : u.role = "faculty") :
    (∃ slot, availability s u day st en
        = .ok { s with availabilities := s.availabilities ++ [slot] } ∧
      slot.is_available = true ∧ slot.faculty_id = u.user_id ∧
      slot.day_of_week = day ∧ slot.start_time = st ∧ slot.end_time = en) ∧
    (∀ day2 st2 en2, ∃ s2,
      (availability s u day st en).bind
          (fun s1 => availability s1 u day2 st2 en2) = .ok s2 ∧
      s2.availabilities.length = s.availabilities.length + 2) := by
  constructor
  · refine ⟨{ availability_id := nextId (s.availabilities.map Availability.availability_id),
              faculty_id := u.user_id, day_of_week := day, start_time := st,
              end_time := en, is_available := true }, ?_, rfl, rfl, rfl, rfl, rfl⟩
    simp [availability, h]
  · intro day2 st2 en2
    simp only [availability, h, bne_self_eq_false, Bool.false_eq_true,
      if_false]
    exact ⟨_, rfl, by simp⟩

/-- Witness for C8: a faculty member posts the same ill-ordered slot
twice into a store that already holds it; both posts succeed. -/
theorem availability_always_inserts_witness :
    (∃ slot, availability oneUserStore drjUser "Mon" "10:00" "09:00"
        = .ok { oneUserStore with
                  availabilities := oneUserStore.availabilities ++ [slot] } ∧
      slot.is_available = true ∧ slot.faculty_id = drjUser.user_id ∧
      slot.day_of_week = "Mon" ∧ slot.start_time = "10:00" ∧
      slot.end_time = "09:00") ∧
    (∀ day2 st2 en2, ∃ s2,
      (availability oneUserStore drjUser "Mon" "10:00" "09:00").bind
          (fun s1 => availability s1 drjUser day2 st2 en2) = .ok s2 ∧
      s2.availabilities.length = oneUserStore.availabilities.length + 2) :=
  availability_always_inserts oneUserStore drjUser "Mon" "10:00" "09:00" rfl

end UAS

namespace UAS

/-- C6: for any store whatsoever, the dashboard's my_appointments value
for a user whose role is "admin" is the global total_appointments
count. -/
theorem my_appointments_admin (s : Store) (u : User) (h : u.role = "admin") :
    my_appointments s u = total_appointments s := by
  simp [my_appointments, h]

/-- Witness for C6 at a concrete admin and store. -/
theorem my_appointments_admin_witness :
    my_appointments apptStore adminUser = total_appointments apptStore :=
  my_appointments_admin apptStore adminUser rfl

/-- C9: the else branches of the listing route and the dashboard are
catch-alls, not admin checks: any role other than "student" and
"faculty" — "admin" or otherwise — sees every Appointment row and gets
my_appointments equal to total_appointments. -/
theorem unrecognized_role_gets_admin_view (s : Store) (u : User)
    (hs : u.role ≠ "student") (hf : u.role ≠ "faculty") :
    appointments s u = s.appointments ∧
    my_appointments s u = total_appointments s := by
  have h1 : (u.role == "student") = false := by simp [hs]
  have h2 : (u.role == "faculty") = false := by simp [hf]
  constructor
  · simp [appointments, h1, h2]
  · simp [my_appointments, h1, h2]

/-- Witness for C9 at a concrete user with the free-text role
"superuser". -/
theorem unrecognized_role_gets_admin_view_witness :
    appointments apptStore sudoUser = apptStore.appointments ∧
    my_appointments apptStore sudoUser = total_appointments apptStore :=
  unrecognized_role_gets_admin_view apptStore sudoUser (by decide) (by decide)

/-- C2: for an existing appointment A found by id, a student caller who
is not A's student, or a faculty caller who is not A's faculty, gets
OwnershipForbidden (the operation returns only the error, so A and
every other row are untouched); an admin caller never fails. -/
theorem cancel_appointment_ownership (s : Store) (u : User) (aid : Nat)
    (A : Appointment)
    (hfind : s.appointments.find? (fun a => a.appointment_id == aid) = some A) :
    (u.role = "student" → A.student_id ≠ u.user_id →
      cancel_appointment s u aid = .error .OwnershipForbidden) ∧
    (u.role = "faculty" → A.faculty_id ≠ u.user_id →
      cancel_appointment s u aid = .error .OwnershipForbidden) ∧
    (u.role = "admin" → ∃ s2, cancel_appointment s u aid = .ok s2) := by
  refine ⟨?_, ?_, ?_⟩
  · intro hr hne
    simp [cancel_appointment, hfind, hr, hne]
  · intro hr hne
    simp [cancel_appointment, hfind, hr, hne]
  · intro hr
    simp only [cancel_appointment, hfind, hr]
    exact ⟨_, by rfl⟩

/-- Witness for C2: Dr. Kim (faculty, not party to sampleAppt) is
refused, and the admin succeeds, at concrete inputs. -/
theorem cancel_appointment_ownership_witness :
    cancel_appointment apptStore drkUser 1 = .error AppError.OwnershipForbidden ∧
    (∃ s2, cancel_appointment apptStore adminUser 1 = .ok s2) :=
  ⟨(cancel_appointment_ownership apptStore drkUser 1 sampleAppt (by decide)).2.1
      rfl (by decide),
   (cancel_appointment_ownership apptStore adminUser 1 sampleAppt (by decide)).2.2
      rfl⟩

end UAS

namespace UAS

/-- The row update performed by cancel_appointment on the row whose
primary key matches. -/
def cancelRow (aid : Nat) (a : Appointment) : Appointment :=
  if a.appointment_id == aid then { a with status := "cancelled" } else a

lemma cancelRow_appointment_id (aid : Nat) (a : Appointment) :
    (cancelRow aid a).appointment_id = a.appointment_id := by
  unfold cancelRow
  split <;> rfl

lemma cancelRow_student_id (aid : Nat) (a : Appointment) :
    (cancelRow aid a).student_id = a.student_id := by
  unfold cancelRow
  split <;> rfl

lemma cancelRow_faculty_id (aid : Nat) (a : Appointment) :
    (cancelRow aid a).faculty_id = a.faculty_id := by
  unfold cancelRow
  split <;> rfl

lemma cancelRow_idem (aid : Nat) (a : Appointment) :
    cancelRow aid (cancelRow aid a) = cancelRow aid a := by
  unfold cancelRow
  by_cases h : (a.appointment_id == aid) = true <;> simp [h]

/-- The success shape of cancel_appointment once the row is found and
both ownership guards are down. -/
lemma cancel_appointment_ok (s : Store) (u : User) (aid : Nat) (A : Appointment)
    (hfind : s.appointments.find? (fun a => a.appointment_id == aid) = some A)
    (hg1 : (u.role == "student" && A.student_id != u.user_id) = false)
    (hg2 : (u.role == "faculty" && A.faculty_id != u.user_id) = false) :
    cancel_appointment s u aid =
      .ok { s with appointments := s.appointments.map (cancelRow aid) } := by
  simp only [cancel_appointment, hfind, hg1, hg2, Bool.false_eq_true, if_false]
  rfl

/-- C10: cancel_appointment is status-insensitive and idempotent: for
an existing appointment and any caller the guards admit (admin, the
owning student, or the owning faculty member), it succeeds whatever the
current status is, afterwards every row with that id has status
"cancelled", and cancelling a second time succeeds and returns the very
same store. -/
theorem cancel_appointment_idempotent (s : Store) (u : User) (aid : Nat)
    (A : Appointment)
    (hfind : s.appointments.find? (fun a => a.appointment_id == aid) = some A)
    (hauth : u.role = "admin" ∨ (u.role = "student" ∧ A.student_id = u.user_id)
      ∨ (u.role = "faculty" ∧ A.faculty_id = u.user_id)) :
    ∃ s2, cancel_appointment s u aid = .ok s2 ∧
      (∀ a ∈ s2.appointments, a.appointment_id = aid → a.status = "cancelled") ∧
      cancel_appointment s2 u aid = .ok s2 := by
  have hg1 : (u.role == "student" && A.student_id != u.user_id) = false := by
    rcases hauth with h | ⟨h1, h2⟩ | ⟨h1, h2⟩
    · simp [h]
    · simp [h2]
    · simp [h1]
  have hg2 : (u.role == "faculty" && A.faculty_id != u.user_id) = false := by
    rcases hauth with h | ⟨h1, h2⟩ | ⟨h1, h2⟩
    · simp [h]
    · simp [h1]
    · simp [h2]
  have hok := cancel_appointment_ok s u aid A hfind hg1 hg2
  refine ⟨{ s with appointments := s.appointments.map (cancelRow aid) },
    hok, ?_, ?_⟩
  · intro a ha haid
    simp only [List.mem_map] at ha
    obtain ⟨b, hb, rfl⟩ := ha
    by_cases hbid : (b.appointment_id == aid) = true
    · simp [cancelRow, hbid]
    · rw [show cancelRow aid b = b by simp [cancelRow, hbid]] at haid
      exact absurd (by simp [haid] : (b.appointment_id == aid) = true) hbid
  · have hcomp : ((fun a : Appointment => a.appointment_id == aid) ∘ cancelRow aid)
        = (fun a : Appointment => a.appointment_id == aid) := by
      funext a
      simp [Function.comp, cancelRow_appointment_id]
    have hfind2 :
        (s.appointments.map (cancelRow aid)).find?
            (fun a => a.appointment_id == aid) = some (cancelRow aid A) := by
      rw [List.find?_map, hcomp, hfind]
      rfl
    have hg1b : (u.role == "student" && (cancelRow aid A).student_id != u.user_id)
        = false := by
      rw [cancelRow_student_id]
      exact hg1
    have hg2b : (u.role == "faculty" && (cancelRow aid A).faculty_id != u.user_id)
        = false := by
      rw [cancelRow_faculty_id]
      exact hg2
    have hok2 := cancel_appointment_ok
      { s with appointments := s.appointments.map (cancelRow aid) } u aid
      (cancelRow aid A) hfind2 hg1b hg2b
    rw [hok2]
    have hmap : (s.appointments.map (cancelRow aid)).map (cancelRow aid)
        = s.appointments.map (cancelRow aid) := by
      rw [List.map_map]
      exact List.map_congr_left (fun a _ => cancelRow_idem aid a)
    congr 1
    simp only [hmap]

/-- Witness for C10: the owning student cancels sampleAppt twice at a
concrete store. -/
theorem cancel_appointment_idempotent_witness :
    ∃ s2, cancel_appointment apptStore aliceUser 1 = .ok s2 ∧
      (∀ a ∈ s2.appointments, a.appointment_id = 1 → a.status = "cancelled") ∧
      cancel_appointment s2 aliceUser 1 = .ok s2 :=
  cancel_appointment_idempotent apptStore aliceUser 1 sampleAppt (by decide)
    (Or.inr (Or.inl ⟨rfl, rfl⟩))

end UAS

namespace UAS

/-- At most one element survives a filterMap that can only fire on one
fixed primary-key value, when the keys are pairwise distinct. -/
lemma length_filterMap_le_one {α β : Type} {key : α → Nat} {l : List α}
    (hnd : (l.map key).Nodup) (h : α → Option β) (k : Nat)
    (hk : ∀ a, (h a).isSome = true → key a = k) :
    (l.filterMap h).length ≤ 1 := by
  induction l with
  | nil => simp
  | cons a t ih =>
    rw [List.map_cons, List.nodup_cons] at hnd
    rcases hcase : h a with _ | b
    · rw [List.filterMap_cons_none hcase]
      exact ih hnd.2
    · rw [List.filterMap_cons_some hcase]
      have hnil : t.filterMap h = [] := by
        rw [List.filterMap_eq_nil_iff]
        intro x hx
        rcases hx2 : h x with _ | c
        · rfl
        · exfalso
          apply hnd.1
          rw [hk a (by simp [hcase]), ← hk x (by simp [hx2])]
          exact List.mem_map_of_mem key hx
      simp [hnil]

/-- Same bound for a flatMap whose blocks each hold at most one element
and which is nonempty only at one fixed primary-key value. -/
lemma length_flatMap_le_one {α β : Type} {key : α → Nat} {l : List α}
    (hnd : (l.map key).Nodup) (g : α → List β) (k : Nat)
    (hk : ∀ a, g a ≠ [] → key a = k)
    (hg : ∀ a, (g a).length ≤ 1) :
    (l.flatMap g).length ≤ 1 := by
  induction l with
  | nil => simp
  | cons a t ih =>
    rw [List.map_cons, List.nodup_cons] at hnd
    rw [List.flatMap_cons]
    by_cases hga : g a = []
    · rw [hga, List.nil_append]
      exact ih hnd.2
    · have htg : t.flatMap g = [] := by
        rw [List.flatMap_eq_nil_iff]
        intro x hx
        by_contra hgx
        apply hnd.1
        rw [hk a hga, ← hk x hgx]
        exact List.mem_map_of_mem key hx
      rw [htg, List.append_nil]
      exact hg a

/-- Membership in the dashboard's join rows, table by table. -/
lemma mem_deptJoinRows (s : Store) (n : String) :
    n ∈ deptJoinRows s ↔ ∃ a ∈ s.appointments, ∃ u ∈ s.users,
      u.user_id = a.faculty_id ∧ ∃ d ∈ s.departments,
      u.department_id = some d.department_id ∧ d.department_name = n := by
  unfold deptJoinRows
  simp only [List.mem_flatMap]
  constructor
  · rintro ⟨a, ha, u, hu, hn⟩
    refine ⟨a, ha, u, hu, ?_⟩
    split at hn
    · rename_i hc
      rw [List.mem_filterMap] at hn
      obtain ⟨d, hd, heq⟩ := hn
      split at heq
      · rename_i hc2
        exact ⟨by simpa using hc, d, hd, by simpa using hc2, by simpa using heq⟩
      · exact absurd heq (by simp)
    · exact absurd hn (by simp)
  · rintro ⟨a, ha, u, hu, hid, d, hd, hdep, hname⟩
    refine ⟨a, ha, u, hu, ?_⟩
    rw [if_pos (by simpa using hid), List.mem_filterMap]
    exact ⟨d, hd, by rw [if_pos (by simpa using hdep)]; simpa using hname⟩

/-- Each appointment contributes at most one join row, because both
join keys are primary keys on the one side. -/
lemma deptJoinRows_length_le (s : Store)
    (hu : (s.users.map User.user_id).Nodup)
    (hd : (s.departments.map Department.department_id).Nodup) :
    (deptJoinRows s).length ≤ s.appointments.length := by
  unfold deptJoinRows
  rw [List.length_flatMap]
  refine le_trans (List.sum_le_card_nsmul _ 1 ?_) (by simp)
  intro x hx
  rw [List.mem_map] at hx
  obtain ⟨a, ha, rfl⟩ := hx
  simp only [Function.comp_apply]
  refine length_flatMap_le_one hu _ a.faculty_id ?_ ?_
  · intro u hne
    by_contra hid
    exact hne (if_neg (by simpa using hid))
  · intro u
    split
    · rcases hdep : u.department_id with _ | m
      · simp
        rw [List.filterMap_eq_nil_iff.mpr (fun _ _ => rfl)]
        simp
      · refine length_filterMap_le_one hd _ m ?_
        intro d hsome
        split at hsome
        · rename_i hc
          exact (by simpa using hc : m = d.department_id).symm
        · simp at hsome
    · simp

/-- C7: every pair listed by the dashboard's per-department counts names
a department with at least one appointment whose faculty member belongs
to it (so every listed count is at least 1 and zero-count departments
are absent), and the listed counts sum to at most total_appointments.
The two Nodup hypotheses are the primary-key constraints of the users
and departments tables. -/
theorem dept_counts_inner_join (s : Store)
    (hu : (s.users.map User.user_id).Nodup)
    (hd : (s.departments.map Department.department_id).Nodup) :
    (∀ nc ∈ dept_counts s, 1 ≤ nc.2 ∧
      ∃ a ∈ s.appointments, ∃ u ∈ s.users, u.user_id = a.faculty_id ∧
        ∃ d ∈ s.departments, u.department_id = some d.department_id ∧
          d.department_name = nc.1) ∧
    ((dept_counts s).map Prod.snd).sum ≤ total_appointments s := by
  constructor
  · intro nc hnc
    unfold dept_counts at hnc
    rw [List.mem_map] at hnc
    obtain ⟨n, hn, rfl⟩ := hnc
    rw [List.mem_dedup] at hn
    exact ⟨List.count_pos_iff.mpr hn, (mem_deptJoinRows s n).mp hn⟩
  · have hmap : (dept_counts s).map Prod.snd
        = (deptJoinRows s).dedup.map (fun n => (deptJoinRows s).count n) := by
      unfold dept_counts
      rw [List.map_map]
      rfl
    rw [hmap, List.sum_map_count_dedup_eq_length]
    exact deptJoinRows_length_le s hu hd

/-- Witness for C7 at a concrete store whose single appointment joins
through drjUser to csDept. -/
theorem dept_counts_inner_join_witness :
    (∀ nc ∈ dept_counts apptStore, 1 ≤ nc.2 ∧
      ∃ a ∈ apptStore.appointments, ∃ u ∈ apptStore.users,
        u.user_id = a.faculty_id ∧ ∃ d ∈ apptStore.departments,
          u.department_id = some d.department_id ∧
          d.department_name = nc.1) ∧
    ((dept_counts apptStore).map Prod.snd).sum ≤ total_appointments apptStore :=
  dept_counts_inner_join apptStore (by decide) (by decide)

end UAS

namespace UAS

/-- One state-changing operation of the application.  login and logout
touch only the session, never the store, so they have no case here; uid
is the session's user id, resolved against the users table the way
current_user() does. -/
inductive Op where
  | opRegister (name email password role : String) (dept : Option Nat)
      (hash : String → String)
  | opNewAppointment (uid faculty_id : Nat) (date start_t end_t purpose : String)
  | opCancel (uid aid : Nat)
  | opAvailability (uid : Nat) (day start_t end_t : String)
  | opDepartments (uid : Nat) (name building phone : String)

/-- A handler that fails flashes a message and redirects, leaving the
store untouched. -/
def orSame (s : Store) : Except AppError Store → Store
  | .ok s2 => s2
  | .error _ => s

/-- current_user (app.py lines 96-100): resolve a user id in the users
table. -/
def userById (s : Store) (uid : Nat) : Option User :=
  s.users.find? (fun u => u.user_id == uid)

/-- Apply one operation to the store, as the corresponding route does;
a request whose session user no longer resolves changes nothing. -/
def applyOp (s : Store) : Op → Store
  | .opRegister n e p r dep hash => orSame s (register s n e p r dep hash)
  | .opNewAppointment uid fid d st en pur =>
      match userById s uid with
      | none => s
      | some u => orSame s (new_appointment s u fid d st en pur)
  | .opCancel uid aid =>
      match userById s uid with
      | none => s
      | some u => orSame s (cancel_appointment s u aid)
  | .opAvailability uid day st en =>
      match userById s uid with
      | none => s
      | some u => orSame s (availability s u day st en)
  | .opDepartments uid n b p =>
      match userById s uid with
      | none => s
      | some u => orSame s (departments s u n b p)

/-- Run a sequence of operations from the empty store. -/
def runOps (ops : List Op) : Store :=
  ops.foldl applyOp emptyStore

/-- Every appointment's status is "scheduled" or "cancelled". -/
def statusOk (s : Store) : Prop :=
  ∀ a ∈ s.appointments, a.status = "scheduled" ∨ a.status = "cancelled"

lemma orSame_register_appointments (s : Store) (n e p r : String)
    (dep : Option Nat) (hash : String → String) :
    (orSame s (register s n e p r dep hash)).appointments = s.appointments := by
  unfold register
  split <;> rfl

lemma applyOp_opRegister_appointments (s : Store) (n e p r : String)
    (dep : Option Nat) (hash : String → String) :
    (applyOp s (.opRegister n e p r dep hash)).appointments = s.appointments := by
  simp only [applyOp]
  exact orSame_register_appointments s n e p r dep hash

lemma orSame_availability_appointments (s : Store) (u : User)
    (day st en : String) :
    (orSame s (availability s u day st en)).appointments = s.appointments := by
  unfold availability
  split <;> rfl

lemma applyOp_opAvailability_appointments (s : Store) (uid : Nat)
    (day st en : String) :
    (applyOp s (.opAvailability uid day st en)).appointments = s.appointments := by
  simp only [applyOp]
  cases userById s uid with
  | none => rfl
  | some u => exact orSame_availability_appointments s u day st en

lemma orSame_departments_appointments (s : Store) (u : User) (n b p : String) :
    (orSame s (departments s u n b p)).appointments = s.appointments := by
  unfold departments
  split
  · rfl
  · split <;> rfl

lemma applyOp_opDepartments_appointments (s : Store) (uid : Nat)
    (n b p : String) :
    (applyOp s (.opDepartments uid n b p)).appointments = s.appointments := by
  simp only [applyOp]
  cases userById s uid with
  | none => rfl
  | some u => exact orSame_departments_appointments s u n b p

lemma orSame_new_appointment_appointments (s : Store) (u : User) (fid : Nat)
    (d st en pur : String) :
    (orSame s (new_appointment s u fid d st en pur)).appointments
        = s.appointments ∨
    ∃ appt, appt.status = "scheduled" ∧
      (orSame s (new_appointment s u fid d st en pur)).appointments
        = s.appointments ++ [appt] := by
  unfold new_appointment
  split
  · exact Or.inl rfl
  · exact Or.inr ⟨
      { appointment_id := nextId (s.appointments.map Appointment.appointment_id),
        student_id := u.user_id, faculty_id := fid, appointment_date := d,
        start_time := st, end_time := en, status := "scheduled",
        purpose := pur }, rfl, rfl⟩

lemma applyOp_opNewAppointment_appointments (s : Store) (uid fid : Nat)
    (d st en pur : String) :
    (applyOp s (.opNewAppointment uid fid d st en pur)).appointments
        = s.appointments ∨
    ∃ appt, appt.status = "scheduled" ∧
      (applyOp s (.opNewAppointment uid fid d st en pur)).appointments
        = s.appointments ++ [appt] := by
  simp only [applyOp]
  cases userById s uid with
  | none => exact Or.inl rfl
  | some u => exact orSame_new_appointment_appointments s u fid d st en pur

lemma orSame_cancel_appointments (s : Store) (u : User) (aid : Nat) :
    (orSame s (cancel_appointment s u aid)).appointments = s.appointments ∨
    (orSame s (cancel_appointment s u aid)).appointments
        = s.appointments.map (cancelRow aid) := by
  unfold cancel_appointment
  split
  · exact Or.inl rfl
  · split
    · exact Or.inl rfl
    · split
      · exact Or.inl rfl
      · exact Or.inr rfl

lemma applyOp_opCancel_appointments (s : Store) (uid aid : Nat) :
    (applyOp s (.opCancel uid aid)).appointments = s.appointments ∨
    (applyOp s (.opCancel uid aid)).appointments
        = s.appointments.map (cancelRow aid) := by
  simp only [applyOp]
  cases userById s uid with
  | none => exact Or.inl rfl
  | some u => exact orSame_cancel_appointments s u aid

/-- One step preserves the status invariant. -/
lemma applyOp_statusOk (s : Store) (op : Op) (hinv : statusOk s) :
    statusOk (applyOp s op) := by
  cases op with
  | opRegister n e p r dep hash =>
      intro a ha
      rw [applyOp_opRegister_appointments] at ha
      exact hinv a ha
  | opNewAppointment uid fid d st en pur =>
      intro a ha
      rcases applyOp_opNewAppointment_appointments s uid fid d st en pur with
        h | ⟨appt, hs, h⟩
      · rw [h] at ha
        exact hinv a ha
      · rw [h] at ha
        rcases List.mem_append.mp ha with h2 | h2
        · exact hinv a h2
        · rw [List.mem_singleton] at h2
          subst h2
          exact Or.inl hs
  | opCancel uid aid =>
      intro a ha
      rcases applyOp_opCancel_appointments s uid aid with h | h
      · rw [h] at ha
        exact hinv a ha
      · rw [h] at ha
        rw [List.mem_map] at ha
        obtain ⟨b, hb, rfl⟩ := ha
        by_cases hid : (b.appointment_id == aid) = true
        · exact Or.inr (by simp [cancelRow, hid])
        · rw [show cancelRow aid b = b by simp [cancelRow, hid]]
          exact hinv b hb
  | opAvailability uid day st en =>
      intro a ha
      rw [applyOp_opAvailability_appointments] at ha
      exact hinv a ha
  | opDepartments uid n b p =>
      intro a ha
      rw [applyOp_opDepartments_appointments] at ha
      exact hinv a ha

lemma foldl_statusOk (ops : List Op) :
    ∀ s, statusOk s → statusOk (ops.foldl applyOp s) := by
  induction ops with
  | nil => exact fun s h => h
  | cons op t ih => exact fun s h => ih _ (applyOp_statusOk s op h)

/-- C3: in every state reachable from the empty store by the
application's operations, every Appointment row has status "scheduled"
or "cancelled" (so "completed" is never produced); and any single
operation either leaves an existing row exactly as it is or sets only
its status, to "cancelled". -/
theorem appointment_status_machine :
    (∀ ops : List Op, ∀ a ∈ (runOps ops).appointments,
      a.status = "scheduled" ∨ a.status = "cancelled") ∧
    (∀ (s : Store) (op : Op), ∀ a ∈ s.appointments,
      ∃ a2 ∈ (applyOp s op).appointments,
        a2.appointment_id = a.appointment_id ∧
        (a2 = a ∨ a2 = { a with status := "cancelled" })) := by
  constructor
  · intro ops
    exact foldl_statusOk ops emptyStore
      (fun a ha => absurd ha (by simp [emptyStore]))
  · intro s op a ha
    cases op with
    | opRegister n e p r dep hash =>
        refine ⟨a, ?_, rfl, Or.inl rfl⟩
        rw [applyOp_opRegister_appointments]
        exact ha
    | opNewAppointment uid fid d st en pur =>
        rcases applyOp_opNewAppointment_appointments s uid fid d st en pur with
          h | ⟨appt, hs, h⟩
        · exact ⟨a, by rw [h]; exact ha, rfl, Or.inl rfl⟩
        · exact ⟨a, by rw [h]; exact List.mem_append_left _ ha, rfl, Or.inl rfl⟩
    | opCancel uid aid =>
        rcases applyOp_opCancel_appointments s uid aid with h | h
        · exact ⟨a, by rw [h]; exact ha, rfl, Or.inl rfl⟩
        · refine ⟨cancelRow aid a, ?_, cancelRow_appointment_id aid a, ?_⟩
          · rw [h]
            exact List.mem_map_of_mem (cancelRow aid) ha
          · by_cases hid : (a.appointment_id == aid) = true
            · exact Or.inr (by simp [cancelRow, hid])
            · exact Or.inl (by simp [cancelRow, hid])
    | opAvailability uid day st en =>
        refine ⟨a, ?_, rfl, Or.inl rfl⟩
        rw [applyOp_opAvailability_appointments]
        exact ha
    | opDepartments uid n b p =>
        refine ⟨a, ?_, rfl, Or.inl rfl⟩
        rw [applyOp_opDepartments_appointments]
        exact ha

/-- Witness for C3: a concrete two-operation run (register a student,
book an appointment) whose resulting row is sampleAppt, and a concrete
cancel step over apptStore. -/
theorem appointment_status_machine_witness :
    (sampleAppt.status = "scheduled" ∨ sampleAppt.status = "cancelled") ∧
    (∃ a2 ∈ (applyOp apptStore (.opCancel 1 1)).appointments,
      a2.appointment_id = sampleAppt.appointment_id ∧
      (a2 = sampleAppt ∨ a2 = { sampleAppt with status := "cancelled" })) :=
  ⟨appointment_status_machine.1
      [Op.opRegister "Alice" "alice@u.edu" "pw1" "student" none demoHash,
       Op.opNewAppointment 1 2 "2024-03-01" "09:00" "10:00" "advising"]
      sampleAppt (by decide),
   appointment_status_machine.2 apptStore (.opCancel 1 1) sampleAppt (by decide)⟩

end UAS
